import Mathlib

/-!
Verification model of `src/app.py` (sigairegister): an event-registration
Flask application.  Attendees register via `POST /register`; the app stores
the record in a MongoDB `registration` collection, encodes the record as a
JSON payload embedded in a QR code, and later validates scanned payloads at
the `POST /$i$tvali` endpoint against the `registration` and `validation`
collections.

The embedding below models:
  * JSON values and Python's `json.loads` as an executable parser
    (`json_loads`), including Python-specific behaviour: `NaN` and
    `Infinity` literals, strict rejection of raw control characters in
    strings, surrogate-pair recombination in `\uXXXX` escapes, and the
    top-level "extra data" check;
  * `json.dumps` on the flat string-valued dictionaries the app produces
    (`pyDumpsFlat`), with Python's default separators and `ensure_ascii`
    escaping;
  * the request handlers `register` and `validate` as pure state-passing
    functions over an `AppState` carrying the two collections; the external
    HTTP sync is a status-code parameter, mail delivery a boolean;
  * uncaught Python exceptions (the handler's `try` only catches
    `json.JSONDecodeError` and `KeyError`) as a `pyerror` outcome.
-/

/-- JSON values as produced by Python's `json.loads`.  Numbers keep their
source lexeme (the app never computes with them), which also covers the
Python-specific `NaN` / `Infinity` / `-Infinity` literals. -/
inductive Json where
  | null : Json
  | bool (b : Bool) : Json
  | num (lexeme : String) : Json
  | str (s : String) : Json
  | arr (elems : List Json) : Json
  | obj (members : List (String × Json)) : Json

mutual

def Json.beq : Json → Json → Bool
  | .null, .null => true
  | .bool a, .bool c => a == c
  | .num a, .num c => a == c
  | .str a, .str c => a == c
  | .arr a, .arr c => Json.beqList a c
  | .obj a, .obj c => Json.beqMembers a c
  | _, _ => false

def Json.beqList : List Json → List Json → Bool
  | [], [] => true
  | x :: xs, y :: ys => Json.beq x y && Json.beqList xs ys
  | _, _ => false

def Json.beqMembers : List (String × Json) → List (String × Json) → Bool
  | [], [] => true
  | (k1, v1) :: xs, (k2, v2) :: ys => k1 == k2 && Json.beq v1 v2 && Json.beqMembers xs ys
  | _, _ => false

end

namespace Json

/-- Python `dict.get`: on duplicate keys `json.loads` keeps the last
occurrence, so lookup prefers the rightmost binding. -/
def membersGet (k : String) : List (String × Json) → Option Json
  | [] => none
  | (k1, v) :: tl =>
    match membersGet k tl with
    | some r => some r
    | none => if k1 = k then some v else none

/-- Python `k in dict`. -/
def hasKey (k : String) (m : List (String × Json)) : Bool :=
  (membersGet k m).isSome

end Json

/-! ### A model of Python `json.loads`

`json.loads` (with default arguments, as called at `src/app.py:142`) parses
per RFC 8259 plus CPython's extensions: the extra constants `NaN`,
`Infinity`, `-Infinity`; strict rejection of raw control characters inside
strings; surrogate-pair recombination for `\uXXXX` escapes (an unpaired
surrogate escape is accepted and kept — modelled here as U+FFFD, since Lean
`Char` cannot carry lone surrogates; none of the verified properties depend
on the identity of that character). -/

/-- JSON whitespace (CPython `WHITESPACE`): space, tab, newline, carriage
return. -/
def isJsonWs (c : Char) : Bool :=
  c = ' ' ∨ c = '\t' ∨ c = '\n' ∨ c = '\r'

def skipWs : List Char → List Char
  | [] => []
  | c :: rest => if isJsonWs c then skipWs rest else c :: rest

def hexDigitVal (c : Char) : Option Nat :=
  if '0' ≤ c ∧ c ≤ '9' then some (c.toNat - 48)
  else if 'a' ≤ c ∧ c ≤ 'f' then some (c.toNat - 87)
  else if 'A' ≤ c ∧ c ≤ 'F' then some (c.toNat - 55)
  else none

/-- Body of a JSON string literal, after the opening quote.  `acc` holds the
decoded characters in reverse.  `fuel` only bounds the recursion so that the
definition is structural (and so computes inside the kernel): every
recursive call consumes at least one input character, so the
`length + 1` supplied at each call site is always enough. -/
def parseStrAux : Nat → List Char → List Char → Option (String × List Char)
  | 0, _, _ => none
  | _ + 1, _, [] => none
  | fuel + 1, acc, c :: rest =>
    if c = '"' then some (⟨acc.reverse⟩, rest)
    else if c = '\\' then
      match rest with
      | [] => none
      | e :: rest1 =>
        if e = '"' then parseStrAux fuel ('"' :: acc) rest1
        else if e = '\\' then parseStrAux fuel ('\\' :: acc) rest1
        else if e = '/' then parseStrAux fuel ('/' :: acc) rest1
        else if e = 'b' then parseStrAux fuel ('\x08' :: acc) rest1
        else if e = 'f' then parseStrAux fuel ('\x0c' :: acc) rest1
        else if e = 'n' then parseStrAux fuel ('\n' :: acc) rest1
        else if e = 'r' then parseStrAux fuel ('\r' :: acc) rest1
        else if e = 't' then parseStrAux fuel ('\t' :: acc) rest1
        else if e = 'u' then
          match rest1 with
          | h1 :: h2 :: h3 :: h4 :: rest2 =>
            match hexDigitVal h1, hexDigitVal h2, hexDigitVal h3, hexDigitVal h4 with
            | some a, some b, some c3, some d =>
              let n := ((a * 16 + b) * 16 + c3) * 16 + d
              if 0xD800 ≤ n ∧ n ≤ 0xDBFF then
                match rest2 with
                | b1 :: b2 :: k1 :: k2 :: k3 :: k4 :: rest3 =>
                  if b1 = '\\' ∧ b2 = 'u' then
                    match hexDigitVal k1, hexDigitVal k2, hexDigitVal k3, hexDigitVal k4 with
                    | some a2, some b2v, some c2, some d2 =>
                      let m := ((a2 * 16 + b2v) * 16 + c2) * 16 + d2
                      if 0xDC00 ≤ m ∧ m ≤ 0xDFFF then
                        parseStrAux fuel
                          (Char.ofNat (0x10000 + (n - 0xD800) * 1024 + (m - 0xDC00)) :: acc) rest3
                      else parseStrAux fuel ('�' :: acc) (b1 :: b2 :: k1 :: k2 :: k3 :: k4 :: rest3)
                    | _, _, _, _ =>
                      parseStrAux fuel ('�' :: acc) (b1 :: b2 :: k1 :: k2 :: k3 :: k4 :: rest3)
                  else parseStrAux fuel ('�' :: acc) (b1 :: b2 :: k1 :: k2 :: k3 :: k4 :: rest3)
                | other => parseStrAux fuel ('�' :: acc) other
              else if 0xDC00 ≤ n ∧ n ≤ 0xDFFF then parseStrAux fuel ('�' :: acc) rest2
              else parseStrAux fuel (Char.ofNat n :: acc) rest2
            | _, _, _, _ => none
          | _ => none
        else none
    else if c.toNat < 0x20 then none
    else parseStrAux fuel (c :: acc) rest

/-- Integer part of a JSON number: `0` or a nonzero digit followed by
digits (CPython `NUMBER_RE`). -/
def parseIntPart : List Char → Option (List Char × List Char)
  | [] => none
  | c :: rest =>
    if c = '0' then some ([c], rest)
    else if c.isDigit then
      let s := rest.span (fun d => d.isDigit)
      some (c :: s.1, s.2)
    else none

/-- Optional fractional part `.digits` (consumed only when at least one
digit follows the dot, matching the regex `(\.\d+)?`). -/
def parseFracPart (cs : List Char) : List Char × List Char :=
  match cs with
  | c :: rest =>
    if c = '.' then
      match rest.span (fun d => d.isDigit) with
      | ([], _) => ([], cs)
      | (ds, rest1) => ('.' :: ds, rest1)
    else ([], cs)
  | [] => ([], cs)

/-- Optional exponent part `[eE][-+]?digits` (consumed only when complete,
matching the regex `([eE][-+]?\d+)?`). -/
def parseExpPart (cs : List Char) : List Char × List Char :=
  match cs with
  | e :: rest =>
    if e = 'e' ∨ e = 'E' then
      match rest with
      | s :: rest1 =>
        if s = '+' ∨ s = '-' then
          match rest1.span (fun d => d.isDigit) with
          | ([], _) => ([], cs)
          | (ds, rest2) => (e :: s :: ds, rest2)
        else
          match rest.span (fun d => d.isDigit) with
          | ([], _) => ([], cs)
          | (ds, rest2) => (e :: ds, rest2)
      | [] => ([], cs)
    else ([], cs)
  | [] => ([], cs)

/-- A JSON number starting at the head of the input; keeps the lexeme. -/
def parseNum (cs : List Char) : Option (String × List Char) :=
  match cs with
  | c :: rest =>
    if c = '-' then
      match parseIntPart rest with
      | none => none
      | some (ip, rest1) =>
        let f := parseFracPart rest1
        let e := parseExpPart f.2
        some (⟨'-' :: (ip ++ f.1 ++ e.1)⟩, e.2)
    else
      match parseIntPart cs with
      | none => none
      | some (ip, rest1) =>
        let f := parseFracPart rest1
        let e := parseExpPart f.2
        some (⟨ip ++ f.1 ++ e.1⟩, e.2)
  | [] => none

mutual

/-- One JSON value (with leading whitespace skipped), CPython scanner.
`fuel` only bounds the recursion; `json_loads` supplies enough for any
input (each recursive call is chargeable to a distinct consumed
character, so `2 * length + 2` always suffices). -/
def parseValue : Nat → List Char → Option (Json × List Char)
  | 0, _ => none
  | fuel + 1, cs =>
    match skipWs cs with
    | [] => none
    | c :: rest =>
      if c = '"' then
        match parseStrAux (rest.length + 1) [] rest with
        | some (s, rest1) => some (.str s, rest1)
        | none => none
      else if c = '\x7b' then
        match skipWs rest with
        | '\x7d' :: rest1 => some (.obj [], rest1)
        | r1 =>
          match parseMembers fuel r1 with
          | some (m, rest2) => some (.obj m, rest2)
          | none => none
      else if c = '[' then
        match skipWs rest with
        | ']' :: rest1 => some (.arr [], rest1)
        | r1 =>
          match parseElems fuel r1 with
          | some (vs, rest2) => some (.arr vs, rest2)
          | none => none
      else if c = 't' then
        match rest with
        | 'r' :: 'u' :: 'e' :: rest1 => some (.bool true, rest1)
        | _ => none
      else if c = 'f' then
        match rest with
        | 'a' :: 'l' :: 's' :: 'e' :: rest1 => some (.bool false, rest1)
        | _ => none
      else if c = 'n' then
        match rest with
        | 'u' :: 'l' :: 'l' :: rest1 => some (.null, rest1)
        | _ => none
      else if c = 'N' then
        match rest with
        | 'a' :: 'N' :: rest1 => some (.num "NaN", rest1)
        | _ => none
      else if c = 'I' then
        match rest with
        | 'n' :: 'f' :: 'i' :: 'n' :: 'i' :: 't' :: 'y' :: rest1 =>
          some (.num "Infinity", rest1)
        | _ => none
      else if c = '-' then
        match rest with
        | 'I' :: 'n' :: 'f' :: 'i' :: 'n' :: 'i' :: 't' :: 'y' :: rest1 =>
          some (.num "-Infinity", rest1)
        | _ =>
          match parseNum (c :: rest) with
          | some (s, rest1) => some (.num s, rest1)
          | none => none
      else if c.isDigit then
        match parseNum (c :: rest) with
        | some (s, rest1) => some (.num s, rest1)
        | none => none
      else none

/-- Array elements after `[` (at least one element). -/
def parseElems : Nat → List Char → Option (List Json × List Char)
  | 0, _ => none
  | fuel + 1, cs =>
    match parseValue fuel cs with
    | none => none
    | some (v, rest) =>
      match skipWs rest with
      | ',' :: rest1 =>
        match parseElems fuel rest1 with
        | some (vs, rest2) => some (v :: vs, rest2)
        | none => none
      | ']' :: rest1 => some ([v], rest1)
      | _ => none

/-- Object members after `\x7b` (at least one member, keys must be
strings). -/
def parseMembers : Nat → List Char → Option (List (String × Json) × List Char)
  | 0, _ => none
  | fuel + 1, cs =>
    match cs with
    | c :: rest =>
      if c = '"' then
        match parseStrAux (rest.length + 1) [] rest with
        | none => none
        | some (k, rest1) =>
          match skipWs rest1 with
          | ':' :: rest2 =>
            match parseValue fuel rest2 with
            | none => none
            | some (v, rest3) =>
              match skipWs rest3 with
              | ',' :: rest4 =>
                match parseMembers fuel (skipWs rest4) with
                | some (kvs, rest5) => some ((k, v) :: kvs, rest5)
                | none => none
              | '\x7d' :: rest4 => some ([(k, v)], rest4)
              | _ => none
          | _ => none
      else none
    | [] => none

end

/-- `json.loads`: parse one value, then require only trailing whitespace
("Extra data" otherwise).  Returns `none` exactly when CPython raises
`json.JSONDecodeError`. -/
def json_loads (s : String) : Option Json :=
  match parseValue (2 * s.data.length + 2) s.data with
  | some (v, rest) => if skipWs rest = [] then some v else none
  | none => none

/-! ### A model of Python `json.dumps` on flat string-valued dicts

`src/app.py` serializes `attendee_info` — a dict whose values are all
strings (form fields plus the stringified ObjectId) — with
`json.dumps(..., cls=ObjectIdEncoder)` and default formatting: separators
`", "` and `": "`, `ensure_ascii=True`. -/

/-- Lowercase hex digit, as CPython's `\uXXXX` escapes emit. -/
def toHexDig (n : Nat) : Char :=
  if n < 10 then Char.ofNat (48 + n) else Char.ofNat (87 + n)

def toHex4 (n : Nat) : List Char :=
  [toHexDig (n / 4096 % 16), toHexDig (n / 256 % 16), toHexDig (n / 16 % 16), toHexDig (n % 16)]

/-- CPython `ensure_ascii` string escaping: backslash, quote and the named
control escapes, `\uXXXX` for other control and non-ASCII characters,
surrogate pairs above the BMP; everything in `0x20`–`0x7e` is literal. -/
def escapeChar (c : Char) : List Char :=
  if c = '"' then ['\\', '"']
  else if c = '\\' then ['\\', '\\']
  else if c = '\x08' then ['\\', 'b']
  else if c = '\x0c' then ['\\', 'f']
  else if c = '\n' then ['\\', 'n']
  else if c = '\r' then ['\\', 'r']
  else if c = '\t' then ['\\', 't']
  else if c.toNat < 0x20 then '\\' :: 'u' :: toHex4 c.toNat
  else if c.toNat ≤ 0x7e then [c]
  else if c.toNat ≤ 0xffff then '\\' :: 'u' :: toHex4 c.toNat
  else
    ('\\' :: 'u' :: toHex4 (0xD800 + (c.toNat - 0x10000) / 1024)) ++
      ('\\' :: 'u' :: toHex4 (0xDC00 + (c.toNat - 0x10000) % 1024))

def escapeList : List Char → List Char
  | [] => []
  | c :: cs => escapeChar c ++ escapeList cs

def escapeString (s : String) : String := ⟨escapeList s.data⟩

/-- A JSON string literal for `s`. -/
def pyQuote (s : String) : String := "\"" ++ escapeString s ++ "\""

/-- The members of a flat string-valued dict, `json.dumps` default
separators. -/
def renderMembersPy : List (String × String) → String
  | [] => ""
  | [(k, v)] => pyQuote k ++ ": " ++ pyQuote v
  | (k, v) :: tl => pyQuote k ++ ": " ++ pyQuote v ++ ", " ++ renderMembersPy tl

/-- `json.dumps` of a flat dict of strings, in insertion order. -/
def pyDumpsFlat (kvs : List (String × String)) : String :=
  "\x7b" ++ renderMembersPy kvs ++ "\x7d"

/-! ### The application model -/

/-- An attendee registration, as collected from the form at
`src/app.py:92`–`100`: all seven fields are strings. -/
structure AttendeeRecord where
  name : String
  degree : String
  class_section : String
  year : String
  register_number : String
  email : String
  phone : String
deriving DecidableEq

/-- A document of the `validation` collection: the seven fields are copied
verbatim from the decoded QR payload (`src/app.py:163`–`171`), so they are
arbitrary JSON values.  The driver-assigned `_id` plays no role in any
verified property and is not modelled. -/
structure ValidationDoc where
  name : Json
  degree : Json
  class_section : Json
  year : Json
  register_number : Json
  email : Json
  phone : Json

/-- The two MongoDB collections (`registration` and `validation`), in
insertion order.  Neither handler ever deletes or updates a document. -/
structure AppState where
  registration : List AttendeeRecord
  validation : List ValidationDoc

/-- `registration_collection.find_one(\x7b"register_number": r\x7d)` where `r` is
the JSON value taken from a decoded payload: a stored record matches iff
its (string) `register_number` equals `r` as a JSON value. -/
def regFindOne (st : AppState) (r : Json) : Option AttendeeRecord :=
  st.registration.find? (fun d => Json.beq (.str d.register_number) r)

/-- `validation_collection.find_one(\x7b"register_number": r\x7d)`. -/
def valFindOne (st : AppState) (r : Json) : Option ValidationDoc :=
  st.validation.find? (fun d => Json.beq d.register_number r)

/-- The seven required payload fields checked at `src/app.py:148`. -/
def required_fields : List String :=
  ["name", "degree", "class_section", "year", "register_number", "email", "phone"]

/-- `all(field in attendee_info for field in required_fields)`. -/
def requiredPresent (m : List (String × Json)) : Bool :=
  required_fields.all (fun f => Json.hasKey f m)

/-- Python truthiness of a JSON value (`if not qr_data`): `None`, `False`,
empty string/array/object and numeric zero are falsy. -/
def pyFalsy : Json → Bool
  | .null => true
  | .bool b => !b
  | .str s => s = ""
  | .arr l => l.isEmpty
  | .obj m => m.isEmpty
  | .num lex =>
    (lex.data.takeWhile (fun c => ¬(c = 'e' ∨ c = 'E'))).all
      (fun c => c = '0' ∨ c = '.' ∨ c = '-')

/-- The rejection reasons of the validation state machine, with the literal
response messages `src/app.py` produces for each. -/
inductive Reason where
  | NoQrData
  | MalformedPayload
  | IncompleteRecord
  | UnknownRegistration
  | AlreadyUsed
  | LedgerSyncFailed
deriving DecidableEq

def reasonMessage : Reason → String
  | .NoQrData => "No QR data provided."
  | .MalformedPayload => "Invalid QR code format."
  | .IncompleteRecord => "Missing required information in QR code."
  | .UnknownRegistration => "Registration not found. Please register first."
  | .AlreadyUsed => "This QR code has already been scanned."
  | .LedgerSyncFailed => "Failed to save data to Google Sheets."

/-- What a `POST /$i$tvali` request produces: either a JSON response
(`jsonify(\x7b'valid': ..., 'message': ..., 'attendee'?: ...\x7d)`) or a Python
exception escaping the handler (the `try` at `src/app.py:140` only catches
`json.JSONDecodeError` and `KeyError`). -/
inductive VOutcome where
  | response (valid : Bool) (message : String) (attendee : Option ValidationDoc)
  | pyerror (exc : String)

/-- Shorthand for the `\x7b'valid': False, 'message': ...\x7d` responses. -/
def rejected (r : Reason) : VOutcome := .response false (reasonMessage r) none

/-- The `validation_data` dict built at `src/app.py:163`–`171` from the
decoded payload (all seven keys are present when this runs). -/
def buildValidationDoc (m : List (String × Json)) : ValidationDoc where
  name := (Json.membersGet "name" m).getD .null
  degree := (Json.membersGet "degree" m).getD .null
  class_section := (Json.membersGet "class_section" m).getD .null
  year := (Json.membersGet "year" m).getD .null
  register_number := (Json.membersGet "register_number" m).getD .null
  email := (Json.membersGet "email" m).getD .null
  phone := (Json.membersGet "phone" m).getD .null

/-- The `POST` branch of the `validate` handler (`src/app.py:136`–`190`).

`qrData` is `request.json.get('qr_data')` (`none` when the key is absent);
`syncStatus` is the HTTP status code returned by the
`requests.post(VALIDATION_SCRIPT_URL, ...)` call; the handler treats any
status other than 200 as failure (`src/app.py:182`).  Returns the outcome
together with the resulting state; the only branch that changes state is
the one that has passed every check and performs the
`validation_collection.insert_one`. -/
def validatePost (qrData : Option Json) (st : AppState) (syncStatus : Nat) :
    VOutcome × AppState :=
  match qrData with
  | none => (rejected .NoQrData, st)
  | some q =>
    if pyFalsy q then (rejected .NoQrData, st)
    else
      match q with
      | .str s =>
        match json_loads s with
        | none => (rejected .MalformedPayload, st)
        | some j =>
          match j with
          | .obj m =>
            let register_number := (Json.membersGet "register_number" m).getD .null
            if ¬requiredPresent m then (rejected .IncompleteRecord, st)
            else
              match regFindOne st register_number with
              | none => (rejected .UnknownRegistration, st)
              | some _ =>
                match valFindOne st register_number with
                | some _ => (rejected .AlreadyUsed, st)
                | none =>
                  let vdoc := buildValidationDoc m
                  let st1 : AppState := { st with validation := st.validation ++ [vdoc] }
                  if syncStatus ≠ 200 then (rejected .LedgerSyncFailed, st1)
                  else (.response true "Validation successful. Data saved." (some vdoc), st1)
          | _ =>
            -- `attendee_info.get('register_number')` on a non-dict raises
            -- AttributeError, which the handler does not catch.
            (.pyerror "AttributeError", st)
      | _ =>
        -- `json.loads` on a non-string (truthy) value raises TypeError,
        -- which the handler does not catch.
        (.pyerror "TypeError", st)

/-- Outcome of a `POST /register` request (`src/app.py:89`–`129`). -/
inductive RegOutcome where
  | duplicate
  | sheetsFailed
  | confirmed (emailSent : Bool)
deriving DecidableEq

/-- The `register` handler: reject when a registration with the same
`register_number` exists (`src/app.py:103`–`106`); otherwise insert, then
post to the registration sheet (failure flashes an error but the insert is
not rolled back), then email the QR code (failure only flashes a
warning). -/
def register (form : AttendeeRecord) (st : AppState)
    (sheetsStatus : Nat) (emailOk : Bool) : RegOutcome × AppState :=
  match st.registration.find? (fun d => d.register_number == form.register_number) with
  | some _ => (.duplicate, st)
  | none =>
    let st1 : AppState := { st with registration := st.registration ++ [form] }
    if sheetsStatus ≠ 200 then (.sheetsFailed, st1)
    else (.confirmed emailOk, st1)

/-- The URL map declared by the three `@app.route` decorators in
`src/app.py` (lines 85, 89, 131). -/
def routes : List (String × List String) :=
  [("/", ["GET"]), ("/register", ["POST"]), ("/$i$tvali", ["GET", "POST"])]

/-- The QR payload produced at registration: `json.dumps(attendee_info)`
after the stringified ObjectId has been added under `"_id"`
(`src/app.py:112`–`124`), in dict insertion order. -/
def encodeAttendee (r : AttendeeRecord) (oid : String) : String :=
  pyDumpsFlat
    [("name", r.name), ("degree", r.degree), ("class_section", r.class_section),
     ("year", r.year), ("register_number", r.register_number), ("email", r.email),
     ("phone", r.phone), ("_id", oid)]

/-- The decode performed at validation: `json.loads`, the required-field
check, and the field extraction of `src/app.py:141`–`171`, read back into
an `AttendeeRecord` (string fields). -/
def decodeAttendee (payload : String) : Option AttendeeRecord :=
  match json_loads payload with
  | some (.obj m) =>
    if requiredPresent m then
      match Json.membersGet "name" m, Json.membersGet "degree" m,
          Json.membersGet "class_section" m, Json.membersGet "year" m,
          Json.membersGet "register_number" m, Json.membersGet "email" m,
          Json.membersGet "phone" m with
      | some (.str n), some (.str d), some (.str c), some (.str y),
          some (.str rn), some (.str e), some (.str p) =>
        some ⟨n, d, c, y, rn, e, p⟩
      | _, _, _, _, _, _, _ => none
    else none
  | _ => none

/-! ### Request sequences and the two-request interleaving model -/

/-- One handled request: either a `POST /$i$tvali` or a `POST /register`,
with arbitrary inputs and arbitrary external-call results. -/
inductive AppStep : AppState → AppState → Prop where
  | validate (q : Option Json) (sync : Nat) (st : AppState) :
      AppStep st (validatePost q st sync).2
  | register (form : AttendeeRecord) (sheets : Nat) (email : Bool) (st : AppState) :
      AppStep st (register form st sheets email).2

/-- Any finite sequence of handled requests. -/
def Reachable : AppState → AppState → Prop := Relation.ReflTransGen AppStep

/-- Progress of one in-flight validation request through its store
operations, for the concurrency analysis of the check-then-insert in
`src/app.py:153`–`182`.  The request has already decoded its payload and
passed the required-field check (those steps touch no shared state). -/
inductive TPhase where
  | atRegCheck
  | atValCheck
  | atInsert
  | atSync
  | finished (out : VOutcome)

/-- Local state of one in-flight validation request: its decoded payload
members and the status its ledger-sync call will return. -/
structure ThreadState where
  m : List (String × Json)
  sync : Nat
  phase : TPhase

/-- One atomic store operation of an in-flight validation request, exactly
the operations the handler performs in order: `find_one` on `registration`,
`find_one` on `validation`, `insert_one`, then the external sync.  Each
MongoDB call is atomic; nothing in `src/app.py` creates a unique index on
the `validation` collection, so `insert_one` cannot fail on a duplicate
`register_number`. -/
def threadStep (t : ThreadState) (st : AppState) : ThreadState × AppState :=
  match t.phase with
  | .atRegCheck =>
    match regFindOne st ((Json.membersGet "register_number" t.m).getD .null) with
    | none => ({ t with phase := .finished (rejected .UnknownRegistration) }, st)
    | some _ => ({ t with phase := .atValCheck }, st)
  | .atValCheck =>
    match valFindOne st ((Json.membersGet "register_number" t.m).getD .null) with
    | some _ => ({ t with phase := .finished (rejected .AlreadyUsed) }, st)
    | none => ({ t with phase := .atInsert }, st)
  | .atInsert =>
    ({ t with phase := .atSync },
     { st with validation := st.validation ++ [buildValidationDoc t.m] })
  | .atSync =>
    if t.sync ≠ 200 then ({ t with phase := .finished (rejected .LedgerSyncFailed) }, st)
    else
      ({ t with phase :=
          .finished (.response true "Validation successful. Data saved."
            (some (buildValidationDoc t.m))) }, st)
  | .finished _ => (t, st)

/-- Run two racing validation requests under an explicit interleaving:
`true` advances the first request by one atomic operation, `false` the
second. -/
def runSchedule : List Bool → ThreadState × ThreadState × AppState →
    ThreadState × ThreadState × AppState
  | [], s => s
  | pick :: rest, (t0, t1, st) =>
    if pick then
      let r := threadStep t0 st
      runSchedule rest (r.1, t1, r.2)
    else
      let r := threadStep t1 st
      runSchedule rest (t0, r.1, r.2)

/-- Shape of a handler outcome: every JSON response the validate handler
builds carries `valid` and `message`, and carries `attendee` exactly when
`valid` is true; an uncaught exception produces no JSON response at all. -/
def okShape : VOutcome → Prop
  | .response valid _ attendee => attendee.isSome = valid
  | .pyerror _ => True

/-! ## Theorems -/

theorem stringMk_data (s : String) : String.mk s.data = s := rfl

mutual

theorem Json.beq_refl : ∀ j : Json, Json.beq j j = true
  | .null => rfl
  | .bool a => by simp [Json.beq]
  | .num a => by simp [Json.beq]
  | .str a => by simp [Json.beq]
  | .arr a => by simp [Json.beq, Json.beqList_refl a]
  | .obj a => by simp [Json.beq, Json.beqMembers_refl a]

theorem Json.beqList_refl : ∀ l : List Json, Json.beqList l l = true
  | [] => rfl
  | x :: xs => by simp [Json.beqList, Json.beq_refl x, Json.beqList_refl xs]

theorem Json.beqMembers_refl : ∀ l : List (String × Json), Json.beqMembers l l = true
  | [] => rfl
  | (k, v) :: xs => by simp [Json.beqMembers, Json.beq_refl v, Json.beqMembers_refl xs]

end

/-- The validate handler never removes anything: its final state is the
input state with zero or one documents appended to `validation`, and
`registration` untouched. -/
theorem validatePost_state (q : Option Json) (st : AppState) (sync : Nat) :
    ∃ l, (validatePost q st sync).2 = { st with validation := st.validation ++ l } := by
  unfold validatePost
  rcases q with _ | q
  · exact ⟨[], by simp⟩
  dsimp only
  split
  · exact ⟨[], by simp⟩
  split
  case h_1 s =>
    split
    · exact ⟨[], by simp⟩
    split
    case h_1 m =>
      split
      · exact ⟨[], by simp⟩
      split
      · exact ⟨[], by simp⟩
      split
      · exact ⟨[], by simp⟩
      split
      · exact ⟨[_], rfl⟩
      · exact ⟨[_], rfl⟩
    all_goals exact ⟨[], by simp⟩
  all_goals exact ⟨[], by simp⟩

/-- The register handler only ever appends to `registration` and never
touches `validation`. -/
theorem register_state (f : AttendeeRecord) (st : AppState) (sheets : Nat) (email : Bool) :
    ∃ l, (register f st sheets email).2 = { st with registration := st.registration ++ l } := by
  unfold register
  split
  · exact ⟨[], by simp⟩
  · split
    · exact ⟨[_], rfl⟩
    · exact ⟨[_], rfl⟩

/-- No handled request ever removes a validation document: a `find_one` hit
for `r` survives any step. -/
theorem appStep_valFindOne {st st2 : AppState} {r : Json} {d : ValidationDoc}
    (h : AppStep st st2) (hd : valFindOne st r = some d) : valFindOne st2 r = some d := by
  cases h with
  | validate q sync st =>
    obtain ⟨l, hl⟩ := validatePost_state q st sync
    rw [hl]
    unfold valFindOne at hd ⊢
    simp [List.find?_append, hd]
  | register f sheets email st =>
    obtain ⟨l, hl⟩ := register_state f st sheets email
    rw [hl]
    exact hd

/-- Nor does any handled request remove a registration document. -/
theorem appStep_regFindOne {st st2 : AppState} {r : Json} {d : AttendeeRecord}
    (h : AppStep st st2) (hd : regFindOne st r = some d) : regFindOne st2 r = some d := by
  cases h with
  | validate q sync st =>
    obtain ⟨l, hl⟩ := validatePost_state q st sync
    rw [hl]
    exact hd
  | register f sheets email st =>
    obtain ⟨l, hl⟩ := register_state f st sheets email
    rw [hl]
    unfold regFindOne at hd ⊢
    simp [List.find?_append, hd]

theorem reachable_valFindOne {st st2 : AppState} {r : Json} {d : ValidationDoc}
    (h : Reachable st st2) (hd : valFindOne st r = some d) : valFindOne st2 r = some d := by
  induction h with
  | refl => exact hd
  | tail _ step ih => exact appStep_valFindOne step ih

theorem reachable_regFindOne {st st2 : AppState} {r : Json} {d : AttendeeRecord}
    (h : Reachable st st2) (hd : regFindOne st r = some d) : regFindOne st2 r = some d := by
  induction h with
  | refl => exact hd
  | tail _ step ih => exact appStep_regFindOne step ih

theorem json_loads_empty : json_loads "" = none := rfl

/-- Evaluation of the handler when every check passes: the validation
document is inserted first, then the outcome depends on the sync status. -/
theorem validatePost_pass (s : String) (st : AppState) (sync : Nat)
    (m : List (String × Json)) (r : Json) (d : AttendeeRecord)
    (hdec : json_loads s = some (.obj m)) (hreq : requiredPresent m = true)
    (hrn : Json.membersGet "register_number" m = some r)
    (hreg : regFindOne st r = some d) (hval : valFindOne st r = none) :
    validatePost (some (.str s)) st sync =
      ((if sync = 200 then
          .response true "Validation successful. Data saved." (some (buildValidationDoc m))
        else rejected .LedgerSyncFailed),
       { st with validation := st.validation ++ [buildValidationDoc m] }) := by
  have hs : s ≠ "" := fun h => by rw [h, json_loads_empty] at hdec; cases hdec
  unfold validatePost
  simp only [pyFalsy, hdec, hrn, hreq, Option.getD_some, hreg, hval, decide_eq_true_eq]
  rw [if_neg hs]
  by_cases h : sync = 200 <;> simp [h]

/-- Evaluation of the handler on a non-empty string whose JSON parse
fails. -/
theorem validatePost_malformed (s : String) (st : AppState) (sync : Nat)
    (hs : s ≠ "") (hdec : json_loads s = none) :
    validatePost (some (.str s)) st sync = (rejected .MalformedPayload, st) := by
  unfold validatePost
  simp only [pyFalsy, hdec, decide_eq_true_eq]
  rw [if_neg hs]

/-- Evaluation of the handler on a payload that parses to a JSON object
missing at least one required field. -/
theorem validatePost_incomplete (s : String) (st : AppState) (sync : Nat)
    (m : List (String × Json))
    (hdec : json_loads s = some (.obj m)) (hreq : requiredPresent m = false) :
    validatePost (some (.str s)) st sync = (rejected .IncompleteRecord, st) := by
  have hs : s ≠ "" := fun h => by rw [h, json_loads_empty] at hdec; cases hdec
  unfold validatePost
  simp only [pyFalsy, hdec, hreq, decide_eq_true_eq]
  rw [if_neg hs]
  simp

/-- Evaluation of the handler on a payload that parses to a JSON value
that is not an object: `attendee_info.get('register_number')` raises
`AttributeError`, which the `except` clauses do not catch. -/
theorem validatePost_nonobject (s : String) (st : AppState) (sync : Nat)
    (j : Json) (hdec : json_loads s = some j) (hobj : ∀ m, j ≠ .obj m) :
    validatePost (some (.str s)) st sync = (.pyerror "AttributeError", st) := by
  have hs : s ≠ "" := fun h => by rw [h, json_loads_empty] at hdec; cases hdec
  cases j
  case obj m => exact absurd rfl (hobj m)
  all_goals
    (unfold validatePost
     simp only [pyFalsy, hdec, decide_eq_true_eq]
     rw [if_neg hs])

/-- Evaluation of the handler when the payload is complete but its
`register_number` has no registration. -/
theorem validatePost_unknown (s : String) (st : AppState) (sync : Nat)
    (m : List (String × Json)) (r : Json)
    (hdec : json_loads s = some (.obj m)) (hreq : requiredPresent m = true)
    (hrn : Json.membersGet "register_number" m = some r)
    (hreg : regFindOne st r = none) :
    validatePost (some (.str s)) st sync = (rejected .UnknownRegistration, st) := by
  have hs : s ≠ "" := fun h => by rw [h, json_loads_empty] at hdec; cases hdec
  unfold validatePost
  simp only [pyFalsy, hdec, hrn, hreq, Option.getD_some, hreg, decide_eq_true_eq]
  rw [if_neg hs]
  simp

/-- Evaluation of the handler when a validation document for the payload's
`register_number` already exists. -/
theorem validatePost_alreadyUsed (s : String) (st : AppState) (sync : Nat)
    (m : List (String × Json)) (r : Json) (d : AttendeeRecord) (v : ValidationDoc)
    (hdec : json_loads s = some (.obj m)) (hreq : requiredPresent m = true)
    (hrn : Json.membersGet "register_number" m = some r)
    (hreg : regFindOne st r = some d) (hval : valFindOne st r = some v) :
    validatePost (some (.str s)) st sync = (rejected .AlreadyUsed, st) := by
  have hs : s ≠ "" := fun h => by rw [h, json_loads_empty] at hdec; cases hdec
  unfold validatePost
  simp only [pyFalsy, hdec, hrn, hreq, Option.getD_some, hreg, hval, decide_eq_true_eq]
  rw [if_neg hs]
  simp

/-- After the passing handler's insert, the new validation document is the
one `find_one` returns for that `register_number`. -/
theorem valFindOne_after_insert (st : AppState) (v : ValidationDoc)
    (hval : valFindOne st v.register_number = none) :
    valFindOne { st with validation := st.validation ++ [v] } v.register_number = some v := by
  unfold valFindOne at hval ⊢
  simp [List.find?_append, hval, Json.beq_refl]

/-- C10: a `POST` body whose `qr_data` key is absent, or whose `qr_data`
value is the empty string or JSON `null`, is answered with
`valid: false, message: 'No QR data provided.'` before any decode, store
lookup, or state change. -/
theorem claim_no_qr_data (st : AppState) (sync : Nat) :
    validatePost none st sync = (.response false "No QR data provided." none, st) ∧
    validatePost (some (.str "")) st sync = (.response false "No QR data provided." none, st) ∧
    validatePost (some .null) st sync = (.response false "No QR data provided." none, st) :=
  ⟨rfl, rfl, rfl⟩

/-- C3 (failing input): `qr_data` strings that parse as JSON but not as a
JSON object — a bare number, string, or array — make the handler raise an
uncaught `AttributeError` (`attendee_info.get` on a non-dict) instead of
returning a structured response. -/
theorem claim_error_recovery_bug :
    validatePost (some (.str "123")) ⟨[], []⟩ 200 = (.pyerror "AttributeError", ⟨[], []⟩) ∧
    validatePost (some (.str "\"abc\"")) ⟨[], []⟩ 200 = (.pyerror "AttributeError", ⟨[], []⟩) ∧
    validatePost (some (.str "[1, 2]")) ⟨[], []⟩ 200 = (.pyerror "AttributeError", ⟨[], []⟩) :=
  ⟨rfl, rfl, rfl⟩

/-- C6: a registration attempt whose `register_number` is already present
in the registration collection is rejected as a duplicate and leaves the
whole store unchanged (no insert, stored record untouched). -/
theorem claim_duplicate_registration (form : AttendeeRecord) (st : AppState)
    (sheets : Nat) (email : Bool)
    (h : ∃ d ∈ st.registration, d.register_number = form.register_number) :
    register form st sheets email = (.duplicate, st) := by
  obtain ⟨d, hd, he⟩ := h
  have hsome : (st.registration.find?
      (fun d0 => d0.register_number == form.register_number)).isSome := by
    rw [List.find?_isSome]
    exact ⟨d, hd, by simp [he]⟩
  obtain ⟨d1, hd1⟩ := Option.isSome_iff_exists.mp hsome
  unfold register
  rw [hd1]

/-- Witness for C6: re-registering `R100` when it is already stored is
rejected and the state is unchanged. -/
theorem claim_duplicate_registration_witness :
    register ⟨"Z", "Z", "Z", "Z", "R100", "Z", "Z"⟩
        ⟨[⟨"A", "B", "C", "D", "R100", "E", "F"⟩], []⟩ 200 true =
      (.duplicate, ⟨[⟨"A", "B", "C", "D", "R100", "E", "F"⟩], []⟩) :=
  claim_duplicate_registration _ _ 200 true
    ⟨⟨"A", "B", "C", "D", "R100", "E", "F"⟩, by simp, rfl⟩

/-- C7: a payload that parses to an object with all seven required fields
but whose `register_number` matches no registration is rejected with
`UnknownRegistration` and no validation document is created, whatever the
other fields hold. -/
theorem claim_unknown_registration (s : String) (st : AppState) (sync : Nat)
    (m : List (String × Json)) (r : Json)
    (hdec : json_loads s = some (.obj m)) (hreq : requiredPresent m = true)
    (hrn : Json.membersGet "register_number" m = some r)
    (hreg : regFindOne st r = none) :
    validatePost (some (.str s)) st sync = (rejected .UnknownRegistration, st) :=
  validatePost_unknown s st sync m r hdec hreq hrn hreg

/-- Witness for C7: a well-formed payload for an unregistered number is
rejected with the `UnknownRegistration` message against an empty store. -/
theorem claim_unknown_registration_witness :
    validatePost
        (some (.str "\x7b\"name\":\"A\",\"degree\":\"B\",\"class_section\":\"C\",\"year\":\"D\",\"register_number\":\"R100\",\"email\":\"E\",\"phone\":\"F\"\x7d"))
        ⟨[], []⟩ 200 =
      (rejected .UnknownRegistration, ⟨[], []⟩) :=
  claim_unknown_registration _ ⟨[], []⟩ 200
    [("name", .str "A"), ("degree", .str "B"), ("class_section", .str "C"),
     ("year", .str "D"), ("register_number", .str "R100"), ("email", .str "E"),
     ("phone", .str "F")]
    (.str "R100") (by rfl) (by rfl) (by rfl) (by rfl)

/-- Counterexample for C8: no route of the application has the path
`/validate`; the scan endpoint's path is `/$i$tvali`. -/
theorem claim_http_surface_counterexample :
    routes.any (fun e => e.1 = "/validate") = false := by decide

/-- C8 (amended): the scan UI and the scan submission endpoint are exposed
at `GET`/`POST` `/$i$tvali` (not `/validate`); every JSON response of the
handler carries `valid` and `message` and carries `attendee` exactly when
the scan was accepted. -/
theorem claim_http_surface_amended :
    ("/$i$tvali", ["GET", "POST"]) ∈ routes ∧
    ∀ q st sync, okShape (validatePost q st sync).1 := by
  constructor
  · simp [routes]
  intro q st sync
  unfold validatePost
  rcases q with _ | q
  · simp [okShape, rejected]
  dsimp only
  split
  · simp [okShape, rejected]
  split
  case h_1 s =>
    split
    · simp [okShape, rejected]
    split
    case h_1 m =>
      split
      · simp [okShape, rejected]
      split
      · simp [okShape, rejected]
      split
      · simp [okShape, rejected]
      split
      · simp [okShape, rejected]
      · simp [okShape, rejected]
    all_goals simp [okShape]
  all_goals simp [okShape]

/-- Counterexample for C9: with `R100` registered and never validated, the
interleaving in which both requests pass the validation-store lookup before
either insert leaves BOTH requests accepted — the code has no storage-level
uniqueness constraint, so the claim's "never two ACCEPTED" fails. -/
theorem claim_concurrency_counterexample :
    (runSchedule [true, false, true, false, true, true, false, false]
        (⟨[("name", .str "A"), ("degree", .str "B"), ("class_section", .str "C"),
           ("year", .str "D"), ("register_number", .str "R100"), ("email", .str "E"),
           ("phone", .str "F")], 200, .atRegCheck⟩,
         ⟨[("name", .str "A"), ("degree", .str "B"), ("class_section", .str "C"),
           ("year", .str "D"), ("register_number", .str "R100"), ("email", .str "E"),
           ("phone", .str "F")], 200, .atRegCheck⟩,
         ⟨[⟨"A", "B", "C", "D", "R100", "E", "F"⟩], []⟩)).1.phase =
      .finished (.response true "Validation successful. Data saved."
        (some (buildValidationDoc
          [("name", .str "A"), ("degree", .str "B"), ("class_section", .str "C"),
           ("year", .str "D"), ("register_number", .str "R100"), ("email", .str "E"),
           ("phone", .str "F")]))) ∧
    (runSchedule [true, false, true, false, true, true, false, false]
        (⟨[("name", .str "A"), ("degree", .str "B"), ("class_section", .str "C"),
           ("year", .str "D"), ("register_number", .str "R100"), ("email", .str "E"),
           ("phone", .str "F")], 200, .atRegCheck⟩,
         ⟨[("name", .str "A"), ("degree", .str "B"), ("class_section", .str "C"),
           ("year", .str "D"), ("register_number", .str "R100"), ("email", .str "E"),
           ("phone", .str "F")], 200, .atRegCheck⟩,
         ⟨[⟨"A", "B", "C", "D", "R100", "E", "F"⟩], []⟩)).2.1.phase =
      .finished (.response true "Validation successful. Data saved."
        (some (buildValidationDoc
          [("name", .str "A"), ("degree", .str "B"), ("class_section", .str "C"),
           ("year", .str "D"), ("register_number", .str "R100"), ("email", .str "E"),
           ("phone", .str "F")]))) :=
  ⟨rfl, rfl⟩

/-- C9 (amended): the check-then-insert of the validate handler is backed
by no storage uniqueness constraint, so two racing validations of a
never-validated `register_number` can both be ACCEPTED (the interleaving
where both `find_one` checks precede both inserts); only when the two
requests are serialized does exactly one get ACCEPTED and the other
`AlreadyUsed`. -/
theorem claim_concurrency_amended :
    (runSchedule [true, true, true, true, false, false]
        (⟨[("name", .str "A"), ("degree", .str "B"), ("class_section", .str "C"),
           ("year", .str "D"), ("register_number", .str "R100"), ("email", .str "E"),
           ("phone", .str "F")], 200, .atRegCheck⟩,
         ⟨[("name", .str "A"), ("degree", .str "B"), ("class_section", .str "C"),
           ("year", .str "D"), ("register_number", .str "R100"), ("email", .str "E"),
           ("phone", .str "F")], 200, .atRegCheck⟩,
         ⟨[⟨"A", "B", "C", "D", "R100", "E", "F"⟩], []⟩)).1.phase =
      .finished (.response true "Validation successful. Data saved."
        (some (buildValidationDoc
          [("name", .str "A"), ("degree", .str "B"), ("class_section", .str "C"),
           ("year", .str "D"), ("register_number", .str "R100"), ("email", .str "E"),
           ("phone", .str "F")]))) ∧
    (runSchedule [true, true, true, true, false, false]
        (⟨[("name", .str "A"), ("degree", .str "B"), ("class_section", .str "C"),
           ("year", .str "D"), ("register_number", .str "R100"), ("email", .str "E"),
           ("phone", .str "F")], 200, .atRegCheck⟩,
         ⟨[("name", .str "A"), ("degree", .str "B"), ("class_section", .str "C"),
           ("year", .str "D"), ("register_number", .str "R100"), ("email", .str "E"),
           ("phone", .str "F")], 200, .atRegCheck⟩,
         ⟨[⟨"A", "B", "C", "D", "R100", "E", "F"⟩], []⟩)).2.1.phase =
      .finished (rejected .AlreadyUsed) ∧
    (runSchedule [true, false, true, false, true, true, false, false]
        (⟨[("name", .str "A"), ("degree", .str "B"), ("class_section", .str "C"),
           ("year", .str "D"), ("register_number", .str "R100"), ("email", .str "E"),
           ("phone", .str "F")], 200, .atRegCheck⟩,
         ⟨[("name", .str "A"), ("degree", .str "B"), ("class_section", .str "C"),
           ("year", .str "D"), ("register_number", .str "R100"), ("email", .str "E"),
           ("phone", .str "F")], 200, .atRegCheck⟩,
         ⟨[⟨"A", "B", "C", "D", "R100", "E", "F"⟩], []⟩)).2.1.phase =
      .finished (.response true "Validation successful. Data saved."
        (some (buildValidationDoc
          [("name", .str "A"), ("degree", .str "B"), ("class_section", .str "C"),
           ("year", .str "D"), ("register_number", .str "R100"), ("email", .str "E"),
           ("phone", .str "F")]))) :=
  ⟨rfl, rfl, rfl⟩

/-- Counterexample for C2: the body `qr_data = "123"` is JSON-parseable and
misses every required field, yet the handler does not reject it with the
`IncompleteRecord` message — it raises an uncaught `AttributeError`. -/
theorem claim_check_order_counterexample :
    validatePost (some (.str "123")) ⟨[], []⟩ 200 ≠ (rejected .IncompleteRecord, ⟨[], []⟩) ∧
    (validatePost (some (.str "123")) ⟨[], []⟩ 200).1 = .pyerror "AttributeError" := by
  refine ⟨fun h => ?_, rfl⟩
  have h1 : VOutcome.pyerror "AttributeError" = rejected Reason.IncompleteRecord :=
    congrArg Prod.fst h
  simp [rejected] at h1

/-- C2 (amended): for a non-empty `qr_data` string the checks run in
order — parse failure → `MalformedPayload`; a parsed non-object raises an
uncaught `AttributeError`; an object missing a required field →
`IncompleteRecord`; unknown `register_number` → `UnknownRegistration`;
existing validation document → `AlreadyUsed`; only after all checks pass is
the document inserted and the sync attempted, and that branch is the only
one that changes the state. -/
theorem claim_check_order_amended (s : String) (st : AppState) (sync : Nat)
    (hs : s ≠ "") :
    (json_loads s = none →
      validatePost (some (.str s)) st sync = (rejected .MalformedPayload, st)) ∧
    (∀ j, json_loads s = some j → (∀ m, j ≠ .obj m) →
      validatePost (some (.str s)) st sync = (.pyerror "AttributeError", st)) ∧
    (∀ m, json_loads s = some (.obj m) → requiredPresent m = false →
      validatePost (some (.str s)) st sync = (rejected .IncompleteRecord, st)) ∧
    (∀ m r, json_loads s = some (.obj m) → requiredPresent m = true →
      Json.membersGet "register_number" m = some r → regFindOne st r = none →
      validatePost (some (.str s)) st sync = (rejected .UnknownRegistration, st)) ∧
    (∀ m r d v, json_loads s = some (.obj m) → requiredPresent m = true →
      Json.membersGet "register_number" m = some r → regFindOne st r = some d →
      valFindOne st r = some v →
      validatePost (some (.str s)) st sync = (rejected .AlreadyUsed, st)) ∧
    (∀ m r d, json_loads s = some (.obj m) → requiredPresent m = true →
      Json.membersGet "register_number" m = some r → regFindOne st r = some d →
      valFindOne st r = none →
      validatePost (some (.str s)) st sync =
        ((if sync = 200 then
            .response true "Validation successful. Data saved." (some (buildValidationDoc m))
          else rejected .LedgerSyncFailed),
         { st with validation := st.validation ++ [buildValidationDoc m] })) := by
  refine ⟨?_, ?_, ?_, ?_, ?_, ?_⟩
  · intro hdec
    exact validatePost_malformed s st sync hs hdec
  · intro j hdec hobj
    exact validatePost_nonobject s st sync j hdec hobj
  · intro m hdec hreq
    exact validatePost_incomplete s st sync m hdec hreq
  · intro m r hdec hreq hrn hreg
    exact validatePost_unknown s st sync m r hdec hreq hrn hreg
  · intro m r d v hdec hreq hrn hreg hval
    exact validatePost_alreadyUsed s st sync m r d v hdec hreq hrn hreg hval
  · intro m r d hdec hreq hrn hreg hval
    exact validatePost_pass s st sync m r d hdec hreq hrn hreg hval

/-- Witness for C2 (amended) at `qr_data = "\x7b\x7d"`: an empty JSON object
is rejected with the `IncompleteRecord` message and the state is
unchanged. -/
theorem claim_check_order_amended_witness :
    validatePost (some (.str "\x7b\x7d")) ⟨[], []⟩ 200 =
      (rejected .IncompleteRecord, ⟨[], []⟩) := by
  have h := claim_check_order_amended "\x7b\x7d" ⟨[], []⟩ 200 (by decide)
  exact h.2.2.1 [] (by rfl) (by rfl)

/-- C5: when every check passes but the ledger sync returns a non-2xx
status, the handler answers with the `LedgerSyncFailed` message while the
freshly inserted validation document stays in the store, so a retry of
the same payload is rejected as `AlreadyUsed`. -/
theorem claim_no_rollback_on_sync_failure (s : String) (st : AppState) (sync : Nat)
    (m : List (String × Json)) (r : Json) (d : AttendeeRecord)
    (hdec : json_loads s = some (.obj m)) (hreq : requiredPresent m = true)
    (hrn : Json.membersGet "register_number" m = some r)
    (hreg : regFindOne st r = some d) (hval : valFindOne st r = none)
    (hsync : ¬(200 ≤ sync ∧ sync < 300)) :
    validatePost (some (.str s)) st sync =
      (rejected .LedgerSyncFailed,
       { st with validation := st.validation ++ [buildValidationDoc m] }) ∧
    valFindOne { st with validation := st.validation ++ [buildValidationDoc m] } r =
      some (buildValidationDoc m) ∧
    ∀ sync2, validatePost (some (.str s))
        { st with validation := st.validation ++ [buildValidationDoc m] } sync2 =
      (rejected .AlreadyUsed,
       { st with validation := st.validation ++ [buildValidationDoc m] }) := by
  have hne : sync ≠ 200 := fun h => hsync (by omega)
  have hins : valFindOne { st with validation := st.validation ++ [buildValidationDoc m] } r =
      some (buildValidationDoc m) := by
    have hrv : (buildValidationDoc m).register_number = r := by
      simp [buildValidationDoc, hrn]
    have h := valFindOne_after_insert st (buildValidationDoc m) (by rw [hrv]; exact hval)
    rw [hrv] at h
    exact h
  refine ⟨?_, hins, ?_⟩
  · have h := validatePost_pass s st sync m r d hdec hreq hrn hreg hval
    rw [if_neg hne] at h
    exact h
  · intro sync2
    exact validatePost_alreadyUsed s _ sync2 m r d (buildValidationDoc m) hdec hreq hrn hreg hins

/-- Witness for C5: a sync status of 500 rejects with the sheets-failure
message, the document is inserted anyway, and the retry is rejected as
already scanned. -/
theorem claim_no_rollback_on_sync_failure_witness :
    (validatePost
        (some (.str "\x7b\"name\":\"A\",\"degree\":\"B\",\"class_section\":\"C\",\"year\":\"D\",\"register_number\":\"R100\",\"email\":\"E\",\"phone\":\"F\"\x7d"))
        ⟨[⟨"A", "B", "C", "D", "R100", "E", "F"⟩], []⟩ 500 =
      (rejected .LedgerSyncFailed,
       ⟨[⟨"A", "B", "C", "D", "R100", "E", "F"⟩],
        [buildValidationDoc
          [("name", .str "A"), ("degree", .str "B"), ("class_section", .str "C"),
           ("year", .str "D"), ("register_number", .str "R100"), ("email", .str "E"),
           ("phone", .str "F")]]⟩)) ∧
    validatePost
        (some (.str "\x7b\"name\":\"A\",\"degree\":\"B\",\"class_section\":\"C\",\"year\":\"D\",\"register_number\":\"R100\",\"email\":\"E\",\"phone\":\"F\"\x7d"))
        ⟨[⟨"A", "B", "C", "D", "R100", "E", "F"⟩],
         [buildValidationDoc
           [("name", .str "A"), ("degree", .str "B"), ("class_section", .str "C"),
            ("year", .str "D"), ("register_number", .str "R100"), ("email", .str "E"),
            ("phone", .str "F")]]⟩ 200 =
      (rejected .AlreadyUsed,
       ⟨[⟨"A", "B", "C", "D", "R100", "E", "F"⟩],
        [buildValidationDoc
          [("name", .str "A"), ("degree", .str "B"), ("class_section", .str "C"),
           ("year", .str "D"), ("register_number", .str "R100"), ("email", .str "E"),
           ("phone", .str "F")]]⟩) := by
  have h := claim_no_rollback_on_sync_failure
    "\x7b\"name\":\"A\",\"degree\":\"B\",\"class_section\":\"C\",\"year\":\"D\",\"register_number\":\"R100\",\"email\":\"E\",\"phone\":\"F\"\x7d"
    ⟨[⟨"A", "B", "C", "D", "R100", "E", "F"⟩], []⟩ 500
    [("name", .str "A"), ("degree", .str "B"), ("class_section", .str "C"),
     ("year", .str "D"), ("register_number", .str "R100"), ("email", .str "E"),
     ("phone", .str "F")]
    (.str "R100") ⟨"A", "B", "C", "D", "R100", "E", "F"⟩
    (by rfl) (by rfl) (by rfl) (by rfl) (by rfl) (by omega)
  exact ⟨h.1, h.2.2 200⟩

/-- C1: with a payload that decodes to an object carrying all seven
required fields, whose `register_number` has a registration and no
validation document yet, and with the sync succeeding, the first
validation is accepted and inserts the validation document; afterwards,
in every state reachable by further handled requests, validating any
payload that encodes the same `register_number` is rejected as
`AlreadyUsed`. -/
theorem claim_single_use_sequential (s : String) (st : AppState)
    (m : List (String × Json)) (r : Json) (d : AttendeeRecord)
    (hdec : json_loads s = some (.obj m)) (hreq : requiredPresent m = true)
    (hrn : Json.membersGet "register_number" m = some r)
    (hreg : regFindOne st r = some d) (hval : valFindOne st r = none) :
    validatePost (some (.str s)) st 200 =
      (.response true "Validation successful. Data saved." (some (buildValidationDoc m)),
       { st with validation := st.validation ++ [buildValidationDoc m] }) ∧
    ∀ st2, Reachable { st with validation := st.validation ++ [buildValidationDoc m] } st2 →
      ∀ s2 m2 sync2, json_loads s2 = some (.obj m2) → requiredPresent m2 = true →
        Json.membersGet "register_number" m2 = some r →
        validatePost (some (.str s2)) st2 sync2 = (rejected .AlreadyUsed, st2) := by
  constructor
  · have h := validatePost_pass s st 200 m r d hdec hreq hrn hreg hval
    simpa using h
  · intro st2 hreach s2 m2 sync2 hdec2 hreq2 hrn2
    have hrv : (buildValidationDoc m).register_number = r := by
      simp [buildValidationDoc, hrn]
    have hv0 : valFindOne { st with validation := st.validation ++ [buildValidationDoc m] } r =
        some (buildValidationDoc m) := by
      have h := valFindOne_after_insert st (buildValidationDoc m) (by rw [hrv]; exact hval)
      rw [hrv] at h
      exact h
    have hv2 := reachable_valFindOne hreach hv0
    have hr2 := reachable_regFindOne hreach
      (show regFindOne { st with validation := st.validation ++ [buildValidationDoc m] } r =
         some d from hreg)
    exact validatePost_alreadyUsed s2 st2 sync2 m2 r d (buildValidationDoc m)
      hdec2 hreq2 hrn2 hr2 hv2

/-- Witness for C1: the first scan of the `R100` payload is accepted and
stores the validation document; the immediate rescan of the same payload
is rejected as already scanned. -/
theorem claim_single_use_sequential_witness :
    (validatePost
        (some (.str "\x7b\"name\":\"A\",\"degree\":\"B\",\"class_section\":\"C\",\"year\":\"D\",\"register_number\":\"R100\",\"email\":\"E\",\"phone\":\"F\"\x7d"))
        ⟨[⟨"A", "B", "C", "D", "R100", "E", "F"⟩], []⟩ 200 =
      (.response true "Validation successful. Data saved."
        (some (buildValidationDoc
          [("name", .str "A"), ("degree", .str "B"), ("class_section", .str "C"),
           ("year", .str "D"), ("register_number", .str "R100"), ("email", .str "E"),
           ("phone", .str "F")])),
       ⟨[⟨"A", "B", "C", "D", "R100", "E", "F"⟩],
        [buildValidationDoc
          [("name", .str "A"), ("degree", .str "B"), ("class_section", .str "C"),
           ("year", .str "D"), ("register_number", .str "R100"), ("email", .str "E"),
           ("phone", .str "F")]]⟩)) ∧
    validatePost
        (some (.str "\x7b\"name\":\"A\",\"degree\":\"B\",\"class_section\":\"C\",\"year\":\"D\",\"register_number\":\"R100\",\"email\":\"E\",\"phone\":\"F\"\x7d"))
        ⟨[⟨"A", "B", "C", "D", "R100", "E", "F"⟩],
         [buildValidationDoc
           [("name", .str "A"), ("degree", .str "B"), ("class_section", .str "C"),
            ("year", .str "D"), ("register_number", .str "R100"), ("email", .str "E"),
            ("phone", .str "F")]]⟩ 200 =
      (rejected .AlreadyUsed,
       ⟨[⟨"A", "B", "C", "D", "R100", "E", "F"⟩],
        [buildValidationDoc
          [("name", .str "A"), ("degree", .str "B"), ("class_section", .str "C"),
           ("year", .str "D"), ("register_number", .str "R100"), ("email", .str "E"),
           ("phone", .str "F")]]⟩) := by
  have h := claim_single_use_sequential
    "\x7b\"name\":\"A\",\"degree\":\"B\",\"class_section\":\"C\",\"year\":\"D\",\"register_number\":\"R100\",\"email\":\"E\",\"phone\":\"F\"\x7d"
    ⟨[⟨"A", "B", "C", "D", "R100", "E", "F"⟩], []⟩
    [("name", .str "A"), ("degree", .str "B"), ("class_section", .str "C"),
     ("year", .str "D"), ("register_number", .str "R100"), ("email", .str "E"),
     ("phone", .str "F")]
    (.str "R100") ⟨"A", "B", "C", "D", "R100", "E", "F"⟩
    (by rfl) (by rfl) (by rfl) (by rfl) (by rfl)
  exact ⟨h.1,
    h.2 _ Relation.ReflTransGen.refl
      "\x7b\"name\":\"A\",\"degree\":\"B\",\"class_section\":\"C\",\"year\":\"D\",\"register_number\":\"R100\",\"email\":\"E\",\"phone\":\"F\"\x7d"
      [("name", .str "A"), ("degree", .str "B"), ("class_section", .str "C"),
       ("year", .str "D"), ("register_number", .str "R100"), ("email", .str "E"),
       ("phone", .str "F")]
      200 (by rfl) (by rfl) (by rfl)⟩

theorem hexDigitVal_toHexDig (k : Nat) (hk : k < 16) :
    hexDigitVal (toHexDig k) = some k := by
  interval_cases k <;> rfl

/-- Char validity, at the `Nat` level. -/
theorem char_toNat_valid (c : Char) :
    c.toNat < 0xd800 ∨ (0xdfff < c.toNat ∧ c.toNat < 0x110000) := by
  have h := c.valid
  rcases h with h | h
  · left
    exact h
  · right
    exact h

/-- Parsing a `\uXXXX` escape of a non-surrogate BMP code point. -/
theorem parseStrAux_u_bmp (f : Nat) (acc rest2 : List Char) (n : Nat)
    (h1 : n < 0xd800 ∨ (0xdfff < n ∧ n ≤ 0xffff)) :
    parseStrAux (f + 1) acc ('\\' :: 'u' :: (toHex4 n ++ rest2)) =
      parseStrAux f (Char.ofNat n :: acc) rest2 := by
  have hd3 := hexDigitVal_toHexDig (n / 4096 % 16) (by omega)
  have hd2 := hexDigitVal_toHexDig (n / 256 % 16) (by omega)
  have hd1 := hexDigitVal_toHexDig (n / 16 % 16) (by omega)
  have hd0 := hexDigitVal_toHexDig (n % 16) (by omega)
  have hn : ((n / 4096 % 16 * 16 + n / 256 % 16) * 16 + n / 16 % 16) * 16 + n % 16 = n := by
    omega
  simp [toHex4, parseStrAux, hd3, hd2, hd1, hd0, hn]
  rw [if_neg (by omega), if_neg (by omega)]

/-- Parsing a surrogate-pair `\uXXXX\uXXXX` escape of a supplementary
code point. -/
theorem parseStrAux_u_pair (f : Nat) (acc rest2 : List Char) (hi lo n : Nat)
    (hh1 : 0xd800 <= hi) (hh2 : hi <= 0xdbff) (hl1 : 0xdc00 <= lo) (hl2 : lo <= 0xdfff)
    (hn : 0x10000 + (hi - 0xd800) * 1024 + (lo - 0xdc00) = n) :
    parseStrAux (f + 1) acc
        ('\\' :: 'u' :: (toHex4 hi ++ ('\\' :: 'u' :: (toHex4 lo ++ rest2)))) =
      parseStrAux f (Char.ofNat n :: acc) rest2 := by
  have hd3 := hexDigitVal_toHexDig (hi / 4096 % 16) (by omega)
  have hd2 := hexDigitVal_toHexDig (hi / 256 % 16) (by omega)
  have hd1 := hexDigitVal_toHexDig (hi / 16 % 16) (by omega)
  have hd0 := hexDigitVal_toHexDig (hi % 16) (by omega)
  have hk3 := hexDigitVal_toHexDig (lo / 4096 % 16) (by omega)
  have hk2 := hexDigitVal_toHexDig (lo / 256 % 16) (by omega)
  have hk1 := hexDigitVal_toHexDig (lo / 16 % 16) (by omega)
  have hk0 := hexDigitVal_toHexDig (lo % 16) (by omega)
  have hhin : ((hi / 4096 % 16 * 16 + hi / 256 % 16) * 16 + hi / 16 % 16) * 16 + hi % 16 = hi := by
    omega
  have hlon : ((lo / 4096 % 16 * 16 + lo / 256 % 16) * 16 + lo / 16 % 16) * 16 + lo % 16 = lo := by
    omega
  simp [toHex4, parseStrAux, hd3, hd2, hd1, hd0, hk3, hk2, hk1, hk0, hhin, hlon]
  rw [if_pos (by omega)]
  rw [if_pos (by omega), hn]

theorem rev_push (acc cs : List Char) (c : Char) :
    (c :: acc).reverse ++ cs = acc.reverse ++ c :: cs := by simp

/-- CPython escaping round-trips through the string parser: parsing
`escapeList cs` followed by a closing quote yields exactly `cs` (appended
to whatever is already accumulated) and leaves the remaining input. -/
theorem parseStrAux_escape : ∀ (cs : List Char) (fuel : Nat) (acc rest : List Char),
    cs.length < fuel →
    parseStrAux fuel acc (escapeList cs ++ '"' :: rest) = some (⟨acc.reverse ++ cs⟩, rest)
  | [], fuel, acc, rest, h => by
    obtain ⟨f, rfl⟩ : ∃ f, fuel = f + 1 := ⟨fuel - 1, by omega⟩
    simp [escapeList, parseStrAux]
  | c :: cs, fuel, acc, rest, h => by
    obtain ⟨f, rfl⟩ : ∃ f, fuel = f + 1 := ⟨fuel - 1, by omega⟩
    have hf : cs.length < f := by
      simp only [List.length_cons] at h
      omega
    have ih := parseStrAux_escape cs f (c :: acc) rest hf
    simp only [escapeList, List.append_assoc]
    by_cases h1 : c = '"'
    · subst h1
      rw [show escapeChar '"' = ['\\', '"'] from rfl]
      simp only [List.cons_append, List.nil_append]
      rw [show parseStrAux (f + 1) acc ('\\' :: '"' :: (escapeList cs ++ '"' :: rest)) =
            parseStrAux f ('"' :: acc) (escapeList cs ++ '"' :: rest) from rfl]
      rw [ih, rev_push]
    by_cases h2 : c = '\\'
    · subst h2
      rw [show escapeChar '\\' = ['\\', '\\'] from rfl]
      simp only [List.cons_append, List.nil_append]
      rw [show parseStrAux (f + 1) acc ('\\' :: '\\' :: (escapeList cs ++ '"' :: rest)) =
            parseStrAux f ('\\' :: acc) (escapeList cs ++ '"' :: rest) from rfl]
      rw [ih, rev_push]
    by_cases h3 : c = '\x08'
    · subst h3
      rw [show escapeChar '\x08' = ['\\', 'b'] from rfl]
      simp only [List.cons_append, List.nil_append]
      rw [show parseStrAux (f + 1) acc ('\\' :: 'b' :: (escapeList cs ++ '"' :: rest)) =
            parseStrAux f ('\x08' :: acc) (escapeList cs ++ '"' :: rest) from rfl]
      rw [ih, rev_push]
    by_cases h4 : c = '\x0c'
    · subst h4
      rw [show escapeChar '\x0c' = ['\\', 'f'] from rfl]
      simp only [List.cons_append, List.nil_append]
      rw [show parseStrAux (f + 1) acc ('\\' :: 'f' :: (escapeList cs ++ '"' :: rest)) =
            parseStrAux f ('\x0c' :: acc) (escapeList cs ++ '"' :: rest) from rfl]
      rw [ih, rev_push]
    by_cases h5 : c = '\n'
    · subst h5
      rw [show escapeChar '\n' = ['\\', 'n'] from rfl]
      simp only [List.cons_append, List.nil_append]
      rw [show parseStrAux (f + 1) acc ('\\' :: 'n' :: (escapeList cs ++ '"' :: rest)) =
            parseStrAux f ('\n' :: acc) (escapeList cs ++ '"' :: rest) from rfl]
      rw [ih, rev_push]
    by_cases h6 : c = '\r'
    · subst h6
      rw [show escapeChar '\r' = ['\\', 'r'] from rfl]
      simp only [List.cons_append, List.nil_append]
      rw [show parseStrAux (f + 1) acc ('\\' :: 'r' :: (escapeList cs ++ '"' :: rest)) =
            parseStrAux f ('\r' :: acc) (escapeList cs ++ '"' :: rest) from rfl]
      rw [ih, rev_push]
    by_cases h7 : c = '\t'
    · subst h7
      rw [show escapeChar '\t' = ['\\', 't'] from rfl]
      simp only [List.cons_append, List.nil_append]
      rw [show parseStrAux (f + 1) acc ('\\' :: 't' :: (escapeList cs ++ '"' :: rest)) =
            parseStrAux f ('\t' :: acc) (escapeList cs ++ '"' :: rest) from rfl]
      rw [ih, rev_push]
    rw [show escapeChar c =
          (if c.toNat < 0x20 then '\\' :: 'u' :: toHex4 c.toNat
           else if c.toNat ≤ 0x7e then [c]
           else if c.toNat ≤ 0xffff then '\\' :: 'u' :: toHex4 c.toNat
           else
             ('\\' :: 'u' :: toHex4 (0xD800 + (c.toNat - 0x10000) / 1024)) ++
               ('\\' :: 'u' :: toHex4 (0xDC00 + (c.toNat - 0x10000) % 1024))) from by
        unfold escapeChar
        rw [if_neg h1, if_neg h2, if_neg h3, if_neg h4, if_neg h5, if_neg h6, if_neg h7]]
    by_cases h8 : c.toNat < 0x20
    · rw [if_pos h8]
      simp only [List.cons_append, List.append_assoc]
      rw [parseStrAux_u_bmp f acc _ c.toNat (Or.inl (by omega))]
      rw [Char.ofNat_toNat, ih, rev_push]
    rw [if_neg h8]
    by_cases h9 : c.toNat ≤ 0x7e
    · rw [if_pos h9]
      simp only [List.cons_append, List.nil_append]
      simp only [parseStrAux]
      rw [if_neg h1, if_neg h2, if_neg (by omega : ¬ c.toNat < 0x20)]
      rw [ih, rev_push]
    rw [if_neg h9]
    by_cases h10 : c.toNat ≤ 0xffff
    · rw [if_pos h10]
      simp only [List.cons_append, List.append_assoc]
      have hv : c.toNat < 0xd800 ∨ (0xdfff < c.toNat ∧ c.toNat ≤ 0xffff) := by
        rcases char_toNat_valid c with hv | hv
        · exact Or.inl hv
        · exact Or.inr ⟨hv.1, h10⟩
      rw [parseStrAux_u_bmp f acc _ c.toNat hv]
      rw [Char.ofNat_toNat, ih, rev_push]
    rw [if_neg h10]
    have hv : c.toNat < 0x110000 := by
      rcases char_toNat_valid c with hv | hv
      · omega
      · exact hv.2
    simp only [List.cons_append, List.append_assoc, List.nil_append]
    rw [parseStrAux_u_pair f acc _ (0xD800 + (c.toNat - 0x10000) / 1024)
          (0xDC00 + (c.toNat - 0x10000) % 1024) c.toNat
          (by omega) (by omega) (by omega) (by omega) (by omega)]
    rw [Char.ofNat_toNat, ih, rev_push]

theorem escapeChar_length_pos (c : Char) : 1 ≤ (escapeChar c).length := by
  unfold escapeChar
  repeat' split
  all_goals first
    | decide
    | simp [toHex4]

theorem escapeList_le_length : ∀ cs : List Char, cs.length ≤ (escapeList cs).length
  | [] => Nat.le_refl _
  | c :: cs => by
    simp only [escapeList, List.length_append, List.length_cons]
    have h1 := escapeChar_length_pos c
    have h2 := escapeList_le_length cs
    omega

theorem pyQuote_data (s : String) :
    (pyQuote s).data = '"' :: (escapeList s.data ++ ['"']) := by
  simp [pyQuote, escapeString, show ("\"").data = ['"'] from rfl]

/-- Parsing a dumped string value preceded by the single space of the
`": "` key separator. -/
theorem parseValue_str_sp (f : Nat) (v : String) (tail : List Char) :
    parseValue (f + 1) (' ' :: '"' :: (escapeList v.data ++ '"' :: tail)) =
      some (.str v, tail) := by
  rw [show parseValue (f + 1) (' ' :: '"' :: (escapeList v.data ++ '"' :: tail)) =
        (match parseStrAux ((escapeList v.data ++ '"' :: tail).length + 1) []
            (escapeList v.data ++ '"' :: tail) with
         | some (s, rest1) => some (Json.str s, rest1)
         | none => none) from rfl]
  rw [parseStrAux_escape v.data _ [] tail (by
    have h := escapeList_le_length v.data
    simp only [List.length_append, List.length_cons]
    omega)]
  simp [stringMk_data]

theorem renderMembersPy_head (k2 v2 : String) (tl2 : List (String × String)) :
    ∃ t, (renderMembersPy ((k2, v2) :: tl2)).data = '"' :: t := by
  cases tl2 with
  | nil =>
    exact ⟨escapeList k2.data ++ ['"'] ++ (": " ++ pyQuote v2).data, by
      simp [renderMembersPy, pyQuote_data]⟩
  | cons p tl3 =>
    exact ⟨escapeList k2.data ++ ['"'] ++
        (": " ++ pyQuote v2 ++ ", " ++ renderMembersPy (p :: tl3)).data, by
      simp [renderMembersPy, pyQuote_data]⟩

theorem renderMembersPy_length : ∀ kvs : List (String × String),
    kvs.length ≤ (renderMembersPy kvs).data.length
  | [] => by simp [renderMembersPy]
  | [(k, v)] => by
    simp [renderMembersPy, pyQuote_data]
  | (k, v) :: (p :: tl) => by
    have ih := renderMembersPy_length (p :: tl)
    simp only [renderMembersPy, List.length_cons, String.data_append,
      List.length_append, pyQuote_data]
    simp only [List.length_cons, List.length_append] at ih ⊢
    omega

/-- Parsing the rendered members of a nonempty flat string dict, up to the
closing brace. -/
theorem parseMembers_flat : ∀ (kvs : List (String × String)) (f : Nat) (rest : List Char),
    kvs ≠ [] → 2 * kvs.length ≤ f →
    parseMembers f ((renderMembersPy kvs).data ++ '\x7d' :: rest) =
      some (kvs.map (fun kv => (kv.1, Json.str kv.2)), rest)
  | [], _, _, hne, _ => absurd rfl hne
  | [(k, v)], f, rest, _, hf => by
    have hf2 : 2 ≤ f := by simpa using hf
    obtain ⟨g2, rfl⟩ : ∃ g2, f = g2 + 1 + 1 := ⟨f - 2, by omega⟩
    rw [show (renderMembersPy [(k, v)]).data =
          '"' :: (escapeList k.data ++ '"' ::
            (':' :: ' ' :: ('"' :: (escapeList v.data ++ ['"'])))) from by
      simp [renderMembersPy, pyQuote_data, show (": ").data = [':', ' '] from rfl]]
    simp only [List.cons_append, List.append_assoc, List.nil_append]
    rw [show parseMembers (g2 + 1 + 1)
          ('"' :: (escapeList k.data ++ '"' ::
            (':' :: ' ' :: ('"' :: (escapeList v.data ++ '"' :: '\x7d' :: rest))))) =
        (match parseStrAux
            ((escapeList k.data ++ '"' ::
              (':' :: ' ' :: ('"' :: (escapeList v.data ++ '"' :: '\x7d' :: rest)))).length + 1)
            []
            (escapeList k.data ++ '"' ::
              (':' :: ' ' :: ('"' :: (escapeList v.data ++ '"' :: '\x7d' :: rest)))) with
         | none => none
         | some (key, rest1) =>
           match skipWs rest1 with
           | ':' :: rest2 =>
             match parseValue (g2 + 1) rest2 with
             | none => none
             | some (val, rest3) =>
               match skipWs rest3 with
               | ',' :: rest4 =>
                 match parseMembers (g2 + 1) (skipWs rest4) with
                 | some (kvs2, rest5) => some ((key, val) :: kvs2, rest5)
                 | none => none
               | '\x7d' :: rest4 => some ([(key, val)], rest4)
               | _ => none
           | _ => none) from rfl]
    rw [parseStrAux_escape k.data _ []
          (':' :: ' ' :: ('"' :: (escapeList v.data ++ '"' :: '\x7d' :: rest)))
          (by
            have h := escapeList_le_length k.data
            simp only [List.length_append, List.length_cons]
            omega)]
    simp only [List.nil_append, List.reverse_nil, stringMk_data]
    rw [show skipWs (':' :: ' ' :: ('"' :: (escapeList v.data ++ '"' :: '\x7d' :: rest))) =
          ':' :: ' ' :: ('"' :: (escapeList v.data ++ '"' :: '\x7d' :: rest)) from rfl]
    simp only [Option.some.injEq]
    rw [parseValue_str_sp g2 v ('\x7d' :: rest)]
    simp [skipWs, isJsonWs]
  | (k, v) :: (p :: tl), f, rest, _, hf => by
    have hf2 : 2 * (tl.length + 2) ≤ f := by simpa using hf
    obtain ⟨g2, rfl⟩ : ∃ g2, f = g2 + 1 + 1 := ⟨f - 2, by omega⟩
    obtain ⟨t, ht⟩ := renderMembersPy_head p.1 p.2 tl
    rw [show (p.1, p.2) = p from rfl] at ht
    have hbody : (renderMembersPy ((k, v) :: p :: tl)).data =
        '"' :: (escapeList k.data ++ '"' ::
          (':' :: ' ' :: ('"' :: (escapeList v.data ++ '"' ::
            (',' :: ' ' :: (renderMembersPy (p :: tl)).data))))) := by
      rw [show renderMembersPy ((k, v) :: p :: tl) =
            pyQuote k ++ ": " ++ pyQuote v ++ ", " ++ renderMembersPy (p :: tl) from rfl]
      simp [pyQuote_data, show (": ").data = [':', ' '] from rfl,
        show (", ").data = [',', ' '] from rfl]
    rw [hbody]
    simp only [List.cons_append, List.append_assoc]
    rw [show parseMembers (g2 + 1 + 1)
          ('"' :: (escapeList k.data ++ '"' ::
            (':' :: ' ' :: ('"' :: (escapeList v.data ++ '"' ::
              (',' :: ' ' :: ((renderMembersPy (p :: tl)).data ++ '\x7d' :: rest))))))) =
        (match parseStrAux
            ((escapeList k.data ++ '"' ::
              (':' :: ' ' :: ('"' :: (escapeList v.data ++ '"' ::
                (',' :: ' ' :: ((renderMembersPy (p :: tl)).data ++ '\x7d' :: rest)))))).length + 1)
            []
            (escapeList k.data ++ '"' ::
              (':' :: ' ' :: ('"' :: (escapeList v.data ++ '"' ::
                (',' :: ' ' :: ((renderMembersPy (p :: tl)).data ++ '\x7d' :: rest)))))) with
         | none => none
         | some (key, rest1) =>
           match skipWs rest1 with
           | ':' :: rest2 =>
             match parseValue (g2 + 1) rest2 with
             | none => none
             | some (val, rest3) =>
               match skipWs rest3 with
               | ',' :: rest4 =>
                 match parseMembers (g2 + 1) (skipWs rest4) with
                 | some (kvs2, rest5) => some ((key, val) :: kvs2, rest5)
                 | none => none
               | '\x7d' :: rest4 => some ([(key, val)], rest4)
               | _ => none
           | _ => none) from rfl]
    rw [parseStrAux_escape k.data _ []
          (':' :: ' ' :: ('"' :: (escapeList v.data ++ '"' ::
            (',' :: ' ' :: ((renderMembersPy (p :: tl)).data ++ '\x7d' :: rest)))))
          (by
            have h := escapeList_le_length k.data
            simp only [List.length_append, List.length_cons]
            omega)]
    simp only [List.nil_append, List.reverse_nil, stringMk_data]
    rw [show skipWs (':' :: ' ' :: ('"' :: (escapeList v.data ++ '"' ::
          (',' :: ' ' :: ((renderMembersPy (p :: tl)).data ++ '\x7d' :: rest))))) =
        ':' :: ' ' :: ('"' :: (escapeList v.data ++ '"' ::
          (',' :: ' ' :: ((renderMembersPy (p :: tl)).data ++ '\x7d' :: rest)))) from rfl]
    simp only [Option.some.injEq]
    rw [parseValue_str_sp g2 v
          (',' :: ' ' :: ((renderMembersPy (p :: tl)).data ++ '\x7d' :: rest))]
    rw [ht]
    simp only [List.cons_append, Option.some.injEq]
    rw [show skipWs (',' :: ' ' :: ('"' :: (t ++ '\x7d' :: rest))) =
          ',' :: ' ' :: ('"' :: (t ++ '\x7d' :: rest)) from rfl]
    simp only [Option.some.injEq]
    rw [show skipWs (' ' :: ('"' :: (t ++ '\x7d' :: rest))) = '"' :: (t ++ '\x7d' :: rest) from rfl]
    rw [show ('"' : Char) :: (t ++ '\x7d' :: rest) =
          (renderMembersPy (p :: tl)).data ++ '\x7d' :: rest from by
      rw [ht]
      simp]
    rw [parseMembers_flat (p :: tl) (g2 + 1) rest (by simp) (by
      simp only [List.length_cons]
      omega)]
    simp

theorem pyDumpsFlat_data (kvs : List (String × String)) :
    (pyDumpsFlat kvs).data = '\x7b' :: ((renderMembersPy kvs).data ++ ['\x7d']) := by
  simp [pyDumpsFlat, show ("\x7b").data = ['\x7b'] from rfl,
    show ("\x7d").data = ['\x7d'] from rfl]

/-- `json.loads` inverts `json.dumps` on every nonempty flat dict of
strings. -/
theorem json_loads_pyDumpsFlat (kvs : List (String × String)) (hne : kvs ≠ []) :
    json_loads (pyDumpsFlat kvs) =
      some (.obj (kvs.map fun kv => (kv.1, Json.str kv.2))) := by
  obtain ⟨q, tlq, rfl⟩ : ∃ q tlq, kvs = q :: tlq := by
    cases kvs with
    | nil => exact absurd rfl hne
    | cons q tlq => exact ⟨q, tlq, rfl⟩
  unfold json_loads
  rw [pyDumpsFlat_data]
  obtain ⟨t, ht⟩ := renderMembersPy_head q.1 q.2 tlq
  rw [show (q.1, q.2) = q from rfl] at ht
  have hlen := renderMembersPy_length (q :: tlq)
  rw [show 2 * ('\x7b' :: ((renderMembersPy (q :: tlq)).data ++ ['\x7d'])).length + 2 =
        (2 * (renderMembersPy (q :: tlq)).data.length + 5) + 1 from by
    simp only [List.length_cons, List.length_append, List.length_nil]
    omega]
  rw [ht]
  rw [show parseValue (2 * ('"' :: t).length + 5 + 1)
        ('\x7b' :: ('"' :: t ++ ['\x7d'])) =
      (match parseMembers (2 * ('"' :: t).length + 5) ('"' :: (t ++ ['\x7d'])) with
       | some (m, rest2) => some (Json.obj m, rest2)
       | none => none) from rfl]
  rw [show ('"' : Char) :: (t ++ ['\x7d']) =
        (renderMembersPy (q :: tlq)).data ++ '\x7d' :: [] from by
    rw [ht]
    simp]
  rw [parseMembers_flat (q :: tlq) _ [] (by simp) (by
    have h2 : (q :: tlq).length ≤ ('"' :: t).length := by
      rw [← ht]
      exact hlen
    simp only [List.length_cons] at h2 ⊢
    omega)]
  simp [skipWs]

/-- C4: decoding the QR payload produced at registration (the
`json.dumps` of the attendee dict plus its `_id`) with the validation
flow's `json.loads` and field extraction returns the original record. -/
theorem claim_codec_round_trip (r : AttendeeRecord) (oid : String) :
    decodeAttendee (encodeAttendee r oid) = some r := by
  unfold decodeAttendee encodeAttendee
  rw [json_loads_pyDumpsFlat _ (by simp)]
  simp [requiredPresent, required_fields, Json.hasKey, Json.membersGet]
